import Mathlib

/-!
Verification development for the `lua-decompiler` repository (a Lua 4.0
bytecode decompiler written in Rust).

The development shallowly embeds the three components of the pipeline:

* the `Decoder` (file `src/lua40.rs` and `src/reader.rs`): multi-byte
  integer reads, header field arithmetic, and instruction-word decoding
  (`Decoder::decode_op`);
* the `Parser` (file `src/lua40/parser.rs`): the stack-machine lifter with
  its simulated operand stack, instruction-indexed nodes buffer, block-span
  stack, local-variable promotion, and the `Namer` name generator;
* the `Scribe` (file `src/lua40/scribe.rs`): the indentation-tracking
  pretty-printer.

Machine integers (`u8`/`u16`/`u32`/`i32`/`usize`) are modelled as `Nat`/`Int`
with explicit `% 2^w` or explicit range tests where wrap-around or casts
matter.  Fallible Rust code returning `Result` is modelled with `Except`;
code paths that panic in Rust (out-of-bounds indexing, `todo!()`,
`unwrap`, `split_off`/`remove` preconditions) are modelled by a
distinguished `panic` error constructor, so that "returns a structured
error" and "aborts the process" are distinguishable outcomes.

Rust's `f64` constant pool is irrelevant to every claim below (the decoder
never reaches a float-producing opcode in the implemented subset); number
constants are carried as their raw IEEE bit patterns (`Nat`) and never
interpreted.
-/

namespace Lua40

/-- `reader.rs`: byte-order flag parsed from the chunk header. -/
inductive Endian where
  | Little
  | Big
deriving DecidableEq, Repr

/-- `reader.rs`: number format selected by the header's number-size byte. -/
inductive NumberType where
  | F32
  | F64
deriving DecidableEq, Repr

/-- `errors.rs` `ErrorKind::Decoder` messages that the embedded decoder
fragment can produce.  Each constructor stands for one distinct
`Error::new_decoder(...)` message string in the source. -/
inductive DecodeErr where
  /-- `"unknown opcode: ..."` from `Opcode::try_from`. -/
  | unknownOpcode
  /-- an `std::io::Error` from `Cursor::read_exact` hitting the end of the
  buffer (a short read); `ErrorKind::Io` in the source. -/
  | shortRead
deriving DecidableEq, Repr

/-- Decoder outcome wrapper: a structured error (`Err(Error)` in Rust) or a
process abort (`todo!()`/panic).  `Except.error (DFail.err e)` models
`Err(e)`; `Except.error DFail.panic` models a panic. -/
inductive DFail where
  | err (e : DecodeErr)
  | panic
deriving DecidableEq, Repr

-- ===========================================================================
-- Multi-byte integer reads (`src/lua40.rs`, `impl Decoder { read_u16/u32/u64 }`)
-- ===========================================================================

/-- `u8` semantics of one buffer byte, and `uN::from_le_bytes`: the bytes of
the buffer are `u8`s; the little-endian value of the byte list. -/
def from_le_bytes (bytes : List Nat) : Nat :=
  bytes.foldr (fun b acc => b % 256 + 256 * acc) 0

/-- `Cursor::read_exact(&mut buf)` for a `buf` of length `n`: consume exactly
`n` bytes from the remaining input, or fail with an I/O error (modelled as
`DecodeErr.shortRead`).  Returns the bytes read and the remaining input. -/
def read_exact (n : Nat) (input : List Nat) :
    Except DecodeErr (List Nat × List Nat) :=
  if n ≤ input.length then .ok (input.take n, input.drop n)
  else .error .shortRead

/-- `Decoder::read_u16`.  NOTE (faithful to the source): the `match` on the
header's endianness has `u16::from_le_bytes` in BOTH arms. -/
def read_u16 (endianess : Endian) (input : List Nat) :
    Except DecodeErr (Nat × List Nat) := do
  let (buf, rest) ← read_exact 2 input
  match endianess with
  | .Little => .ok (from_le_bytes buf, rest)
  | .Big => .ok (from_le_bytes buf, rest)

/-- `Decoder::read_u32`.  Both endianness arms use `u32::from_le_bytes`. -/
def read_u32 (endianess : Endian) (input : List Nat) :
    Except DecodeErr (Nat × List Nat) := do
  let (buf, rest) ← read_exact 4 input
  match endianess with
  | .Little => .ok (from_le_bytes buf, rest)
  | .Big => .ok (from_le_bytes buf, rest)

/-- `Decoder::read_u64`.  Both endianness arms use `u64::from_le_bytes`. -/
def read_u64 (endianess : Endian) (input : List Nat) :
    Except DecodeErr (Nat × List Nat) := do
  let (buf, rest) ← read_exact 8 input
  match endianess with
  | .Little => .ok (from_le_bytes buf, rest)
  | .Big => .ok (from_le_bytes buf, rest)

-- ===========================================================================
-- Header (`src/lua40.rs`, `struct Header` and its `impl`)
-- ===========================================================================

/-- `struct Header`: layout information parsed from the chunk header.
Width fields are `u8` in the source. -/
structure Header where
  version : Nat
  endianess : Endian
  size_int : Nat
  size_t : Nat
  size_instr : Nat
  size_instr_arg : Nat
  size_op : Nat
  size_b : Nat
  number_type : NumberType
deriving DecidableEq, Repr

/-- Reinterpretation of a `u32` bit pattern (a `Nat` below `2^32`) as an
`i32`, i.e. the Rust cast `x as i32`. -/
def u32_as_i32 (n : Nat) : Int :=
  if n < 2 ^ 31 then (n : Int) else (n : Int) - 2 ^ 32

/-- Truncating cast of a `usize` (arbitrary `Nat`) to `i32`, i.e. the Rust
cast `x as i32` on a 64-bit `usize`: keep the low 32 bits, reinterpret. -/
def usize_as_i32 (n : Nat) : Int :=
  u32_as_i32 (n % 2 ^ 32)

/-- `i32` arithmetic shift right (`>>`) on the mathematical value: floor
division by a power of two. -/
def i32_shr (x : Int) (n : Nat) : Int :=
  Int.fdiv x (2 ^ n)

/-- `Header::size_u`: bit width of instruction argument `U`
(`size_instr_arg - size_op`, as `u32` subtraction; the source value wraps
if `size_op > size_instr_arg`, which no theorem below relies on, so we keep
truncated `Nat` subtraction). -/
def Header.size_u (h : Header) : Nat :=
  h.size_instr_arg - h.size_op

/-- `Header::max_arg_u`: max value of argument `U`, `(1 << size_u) - 1`. -/
def Header.max_arg_u (h : Header) : Nat :=
  (1 <<< h.size_u) - 1

/-- `Header::max_arg_s`: max value of argument `S`,
`max_arg_u() as i32 >> 1` ("1 bit taken up by sign"). -/
def Header.max_arg_s (h : Header) : Int :=
  i32_shr (u32_as_i32 h.max_arg_u) 1

/-- `Header::pos_arg_a`: bit position of argument `A`, `size_op + size_b`. -/
def Header.pos_arg_a (h : Header) : Nat :=
  h.size_op + h.size_b

/-- `Header::pos_arg_b`: bit position of argument `B`, `size_op`. -/
def Header.pos_arg_b (h : Header) : Nat :=
  h.size_op

/-- `Header::max_arg_b`: max value of argument `B`, `(1 << size_b) - 1`. -/
def Header.max_arg_b (h : Header) : Nat :=
  (1 <<< h.size_b) - 1

-- ===========================================================================
-- Opcodes and decoded instructions (`src/lua40.rs`)
-- ===========================================================================

/-- `enum Opcode`: the 49 documented Lua 4.0 opcode values (0..=48),
as per `lopcode.h`. -/
inductive Opcode where
  | End | Return
  | Call | TailCall
  | PushNil | Pop
  | PushInt | PushString | PushNum | PushNegNum
  | PushValue
  | GetLocal | GetGlobal
  | GetTable | GetDotted | GetIndexed | PushSelf
  | CreateTable
  | SetLocal | SetGlobal | SetTable
  | SetList | SetMap
  | Add | AddI | Sub | Mult | Div | Pow | Concat | Minus | Not
  | JumpNe | JumpEq | JumpLt | JumpLe | JumpGt | JumpGe
  | JumpTrue | JumpFalse | JumpOnTrue | JumpOnFalse | Jump
  | PushNilJump
  | ForPrep | ForLoop
  | LForPrep | LForLoop
  | Closure
deriving DecidableEq, Repr

/-- `impl TryFrom<u32> for Opcode`: opcode values 0..=48 decode; any other
value is the decoder error `"unknown opcode: ..."`. -/
def Opcode.tryFrom (value : Nat) : Except DecodeErr Opcode :=
  match value with
  | 0 => .ok .End
  | 1 => .ok .Return
  | 2 => .ok .Call
  | 3 => .ok .TailCall
  | 4 => .ok .PushNil
  | 5 => .ok .Pop
  | 6 => .ok .PushInt
  | 7 => .ok .PushString
  | 8 => .ok .PushNum
  | 9 => .ok .PushNegNum
  | 10 => .ok .PushValue
  | 11 => .ok .GetLocal
  | 12 => .ok .GetGlobal
  | 13 => .ok .GetTable
  | 14 => .ok .GetDotted
  | 15 => .ok .GetIndexed
  | 16 => .ok .PushSelf
  | 17 => .ok .CreateTable
  | 18 => .ok .SetLocal
  | 19 => .ok .SetGlobal
  | 20 => .ok .SetTable
  | 21 => .ok .SetList
  | 22 => .ok .SetMap
  | 23 => .ok .Add
  | 24 => .ok .AddI
  | 25 => .ok .Sub
  | 26 => .ok .Mult
  | 27 => .ok .Div
  | 28 => .ok .Pow
  | 29 => .ok .Concat
  | 30 => .ok .Minus
  | 31 => .ok .Not
  | 32 => .ok .JumpNe
  | 33 => .ok .JumpEq
  | 34 => .ok .JumpLt
  | 35 => .ok .JumpLe
  | 36 => .ok .JumpGt
  | 37 => .ok .JumpGe
  | 38 => .ok .JumpTrue
  | 39 => .ok .JumpFalse
  | 40 => .ok .JumpOnTrue
  | 41 => .ok .JumpOnFalse
  | 42 => .ok .Jump
  | 43 => .ok .PushNilJump
  | 44 => .ok .ForPrep
  | 45 => .ok .ForLoop
  | 46 => .ok .LForPrep
  | 47 => .ok .LForLoop
  | 48 => .ok .Closure
  | _ => .error .unknownOpcode

/-- `enum Op`: the decoded-instruction variants the source actually defines
(only the subset reachable without hitting a `todo!()` in `decode_op`). -/
inductive Op where
  | End
  | Return (results : Nat)
  | Call (stack_offset : Nat) (results : Nat)
  | Pop (n : Nat)
  | PushInt (value : Int)
  | GetLocal (stack_offset : Nat)
  | GetGlobal (string_id : Nat)
  | SetLocal (stack_offset : Nat)
  | Add
  | JumpLe (ip : Int)
deriving DecidableEq, Repr

/-- Bitwise not on a `u32` (`!x` in Rust): xor with the all-ones word. -/
def u32_not (x : Nat) : Nat :=
  (2 ^ 32 - 1) ^^^ x

/-- The `mask1!(n, p)` macro: `(!(!0u32 << n)) << p`, a mask of `n` one
bits at position `p`, with every `u32` shift truncated to 32 bits. -/
def mask1 (n p : Nat) : Nat :=
  ((u32_not ((u32_not 0 <<< n) % 2 ^ 32)) <<< p) % 2 ^ 32

/-- The `arg_s` computation inside `Decoder::decode_op`:
`arg_u as i32 - self.header.max_arg_s()` (`i32` arithmetic on the
mathematical values; no Op in the implemented subset drives it out of
`i32` range for the headers considered by the theorems below). -/
def arg_s (h : Header) (arg_u : Nat) : Int :=
  u32_as_i32 arg_u - h.max_arg_s

/-- `Decoder::decode_op`: unpack one raw 32-bit instruction word into an
`Op`.  Every opcode the source leaves as `todo!()` aborts the process,
modelled as `.error DFail.panic`. -/
def decode_op (h : Header) (op : Nat) : Except DFail Op :=
  match Opcode.tryFrom (op &&& mask1 h.size_op 0) with
  | .error e => .error (.err e)
  | .ok opcode =>
    let arg_u := op >>> h.size_op
    let argS := arg_s h arg_u
    let arg_a := op >>> h.pos_arg_a
    let arg_b := (op >>> h.pos_arg_b) &&& h.max_arg_b
    match opcode with
    | .End => .ok .End
    | .Return => .ok (.Return arg_u)
    | .Call => .ok (.Call arg_a arg_b)
    | .TailCall => .error .panic
    | .PushNil => .error .panic
    | .Pop => .ok (.Pop arg_u)
    | .PushInt => .ok (.PushInt argS)
    | .PushString => .error .panic
    | .PushNum => .error .panic
    | .PushNegNum => .error .panic
    | .PushValue => .error .panic
    | .GetLocal => .ok (.GetLocal arg_u)
    | .GetGlobal => .ok (.GetGlobal arg_u)
    | .GetTable => .error .panic
    | .GetDotted => .error .panic
    | .GetIndexed => .error .panic
    | .PushSelf => .error .panic
    | .CreateTable => .error .panic
    | .SetLocal => .ok (.SetLocal arg_u)
    | .SetGlobal => .error .panic
    | .SetTable => .error .panic
    | .SetList => .error .panic
    | .SetMap => .error .panic
    | .Add => .ok .Add
    | .AddI => .error .panic
    | .Sub => .error .panic
    | .Mult => .error .panic
    | .Div => .error .panic
    | .Pow => .error .panic
    | .Concat => .error .panic
    | .Minus => .error .panic
    | .Not => .error .panic
    | .JumpNe => .error .panic
    | .JumpEq => .error .panic
    | .JumpLt => .error .panic
    | .JumpLe => .ok (.JumpLe argS)
    | .JumpGt => .error .panic
    | .JumpGe => .error .panic
    | .JumpTrue => .error .panic
    | .JumpFalse => .error .panic
    | .JumpOnTrue => .error .panic
    | .JumpOnFalse => .error .panic
    | .Jump => .error .panic
    | .PushNilJump => .error .panic
    | .ForPrep => .error .panic
    | .ForLoop => .error .panic
    | .LForPrep => .error .panic
    | .LForLoop => .error .panic
    | .Closure => .error .panic

-- ===========================================================================
-- Prototypes (`src/lua40.rs`: `struct Proto`, `struct Local`,
-- `struct Constants`)
-- ===========================================================================

/-- `struct Local` in `src/lua40.rs`: debug information for one local
variable. -/
structure Local where
  varname : String
  /-- Point where variable is live. -/
  startpc : Nat
  /-- Point where variable is dead. -/
  endpc : Nat
deriving DecidableEq, Repr

mutual
/-- `struct Proto`: one function prototype.  `code` is the raw 32-bit
instruction words; `ops` the decoded instructions.  Fields in source
order. -/
inductive Proto where
  | mk (code : List Nat) (ops : List Op) (source : String)
       (line_defined : Nat) (num_params : Nat) (is_vararg : Bool)
       (max_stack : Nat) (locals : List Local) (constants : Constants)
       (lines : List Nat)

/-- `struct Constants`: the three constant pools.  `numbers` holds the raw
IEEE-754 bit patterns of the `f64` pool (never interpreted by any code the
claims touch). -/
inductive Constants where
  | mk (strings : List String) (numbers : List Nat) (protos : List Proto)
end

def Proto.code : Proto → List Nat
  | .mk c _ _ _ _ _ _ _ _ _ => c

def Proto.ops : Proto → List Op
  | .mk _ o _ _ _ _ _ _ _ _ => o

def Proto.constants : Proto → Constants
  | .mk _ _ _ _ _ _ _ _ k _ => k

def Constants.strings : Constants → List String
  | .mk s _ _ => s

-- ===========================================================================
-- Abstract syntax tree (`src/lua40/ast.rs`)
-- ===========================================================================

/-- `struct Ident`: an identifier wrapping its text. -/
structure Ident where
  text : String
deriving DecidableEq, Repr

/-- `enum Lit`: literal values.  `Num` carries the raw bit pattern of the
source's `f64` (never constructed or inspected by the implemented
opcode subset). -/
inductive Lit where
  | Int (value : Int)
  | Num (bits : Nat)
  | Str (s : String)
deriving DecidableEq, Repr

/-- `enum BinOp`: binary operators (the source defines only `Add`). -/
inductive BinOp where
  | Add
deriving DecidableEq, Repr

/-- `enum CondOp`: conditional operators. -/
inductive CondOp where
  | Ne | Eq | Lt | Le | Gt | Ge
deriving DecidableEq, Repr

-- `enum Expr`, `struct BinExpr` and `struct Call` of `ast.rs`.  The two
-- payload structs are mutually recursive with `Expr` (Lean structures cannot
-- take part in inductive mutual blocks, so they are single-constructor
-- inductives with accessor functions below).
mutual
/-- `enum Expr`. -/
inductive Expr where
  /-- Variable access by name. -/
  | Access (ident : Ident)
  | Literal (lit : Lit)
  | Binary (bin_expr : BinExpr)
  | Call (call : Call)

/-- `struct BinExpr`. -/
inductive BinExpr where
  | mk (op : BinOp) (lhs rhs : Expr)

/-- `struct Call`: callee expression and argument expressions. -/
inductive Call where
  | mk (name : Expr) (args : List Expr)
end

def BinExpr.op : BinExpr → BinOp
  | .mk o _ _ => o

def BinExpr.lhs : BinExpr → Expr
  | .mk _ l _ => l

def BinExpr.rhs : BinExpr → Expr
  | .mk _ _ r => r

def Call.name : Call → Expr
  | .mk n _ => n

def Call.args : Call → List Expr
  | .mk _ a => a

/-- `enum CondExpr` (the `op` of `Unary` is the unit type in the source). -/
inductive CondExpr where
  | Unary (op : Unit) (rhs : Expr)
  | Binary (op : CondOp) (lhs rhs : Expr)

/-- `struct IfHead`: header for an `if` conditional statement. -/
structure IfHead where
  expr : CondExpr

/-- `enum Partial` of `ast.rs` (named `Pending` here): a partially built
statement. -/
inductive Pending where
  | IfHead (head : IfHead)
  | WhileHead
  | ForHead

/-- `struct LocalVar`: local variable declaration `local {name} = {rhs}`. -/
structure LocalVar where
  name : Ident
  rhs : Expr

/-- `struct Assign`. -/
structure Assign where
  name : Ident
  rhs : Expr

mutual
/-- `enum Node`: a syntax node.  The Rust variant `Partial` is named
`Pending` here. -/
inductive Node where
  | Stmt (s : Stmt)
  | Expr (e : Expr)
  | Pending (p : Pending)

/-- `enum Stmt`. -/
inductive Stmt where
  | LocalVar (local_var : LocalVar)
  | Assign (assign : Assign)
  | Call (call : Call)
  | Block (b : Block)
  | If (if_block : IfBlock)

/-- `struct IfBlock`: `if` conditional block statement. -/
inductive IfBlock where
  | mk (head : CondExpr) (then_ : Block) (else_ : Option Block)

/-- `struct Block`: a block of statements. -/
inductive Block where
  | mk (nodes : List Node)
end

def Block.nodes : Block → List Node
  | .mk ns => ns

def IfBlock.head : IfBlock → CondExpr
  | .mk h _ _ => h

def IfBlock.then_ : IfBlock → Block
  | .mk _ t _ => t

def IfBlock.else_ : IfBlock → Option Block
  | .mk _ _ e => e

/-- `struct Syntax`: the abstract syntax tree handed from Parser to
Scribe (named `SyntaxTree` here; `Syntax` is taken by Lean itself). -/
structure SyntaxTree where
  root : Block
  debug : Unit

/-- `Node::is_local_var`: is the node a local variable declaration? -/
def Node.is_local_var : Node → Bool
  | .Stmt (.LocalVar _) => true
  | _ => false

/-- `Node::into_expr`. -/
def Node.into_expr : Node → Option Lua40.Expr
  | .Expr e => some e
  | _ => none

/-- `Node::into_partial` (named for the `Pending` rename). -/
def Node.into_pending : Node → Option Lua40.Pending
  | .Pending p => some p
  | _ => none

-- ===========================================================================
-- Parser errors (`src/lua40/parser.rs` error constructors)
-- ===========================================================================

/-- The distinct error messages the parser constructs.  The first six are
`ErrorKind::Parser`, the two jump errors are built with
`Error::new_decoder` in the source (kind `Decoder`); each constructor
stands for one distinct message string. -/
inductive ParserErr where
  /-- "operand stack underflow" -/
  | stackUnderflow
  /-- "expected expression" -/
  | exprExpected
  /-- "expected partial statement" -/
  | pendingExpected
  /-- "no syntax node for bytecode" -/
  | nodeNone
  /-- "a statement cannot be turned into a local variable declaration" -/
  | stmtPromotion
  /-- "a partially built statement cannot be turned into a local
  variable declaration" -/
  | pendingPromotion
  /-- "jump address overflow" (decoder kind) -/
  | jumpAddressOverflow
  /-- "jump destination out of bounds" (decoder kind) -/
  | jumpDestOutOfBounds
  /-- "unexpected statement in local variable node" -/
  | unexpectedStmtInLocal
  /-- "unexpected expression in local variable node" -/
  | unexpectedExprInLocal
  /-- "unexpected partial statement in local variable node" -/
  | unexpectedPendingInLocal
deriving DecidableEq, Repr

/-- Parser outcome wrapper: a structured error (`Err(Error)`) or a process
abort (panic: out-of-bounds `Vec`/slice indexing, `Vec::split_off` /
`Vec::remove` precondition failures, or a `todo!()`). -/
inductive PFail where
  | err (e : ParserErr)
  | panic
deriving DecidableEq, Repr

-- ===========================================================================
-- Name generator (`src/lua40/parser.rs`, `struct Namer`)
-- ===========================================================================

/-- `ASCII_CHARS`: the byte values of the letters a..z. -/
def ASCII_CHARS : List Nat :=
  [97, 98, 99, 100, 101, 102, 103, 104, 105, 106, 107, 108, 109,
   110, 111, 112, 113, 114, 115, 116, 117, 118, 119, 120, 121, 122]

/-- `struct Namer`: generator for synthesized local-variable names. -/
structure Namer where
  /-- Set of characters (bytes) that can be used to generate names. -/
  chars : List Nat
  cursor : Nat
  count : Nat
deriving DecidableEq, Repr

/-- `Namer::new`. -/
def Namer.new (char_set : List Nat) : Namer :=
  { chars := char_set, cursor := 0, count := 0 }

/-- `Namer::next`: build a name of `count / chars.len() + 1` characters,
character `i` being `chars[(count + i) % chars.len()]`, then increment
`count`.  Returns the name and the updated generator.  (`chars` is never
empty in any use; `getD 0` stands for the infallible index.) -/
def Namer.next (nm : Namer) : String × Namer :=
  let len := nm.count / nm.chars.length
  let buf := String.mk <| (List.range (len + 1)).map fun i =>
    Char.ofNat (nm.chars.getD ((nm.count + i) % nm.chars.length) 0)
  (buf, { nm with count := nm.count + 1 })

/-- The name produced by the `k`-th call (0-based) of `Namer::next` on a
given generator: iterate `next`, keeping the last name. -/
def Namer.nth (nm : Namer) : Nat → String
  | 0 => nm.next.1
  | k + 1 => nm.next.2.nth k

-- ===========================================================================
-- Parser (`src/lua40/parser.rs`)
-- ===========================================================================

/-- `struct BlockSpan`: an open block on the span stack.  `start` is the
instruction where the block started, `end` (here `end_`) the instruction
right after the last instruction in the block. -/
structure BlockSpan where
  start : Nat
  end_ : Nat
deriving DecidableEq, Repr

/-- `struct Local` of `parser.rs` (named `PLocal`; the decoder's debug
struct is also called `Local` in the source).  Never populated: the only
writer, `declare_local`, is `todo!()`. -/
structure PLocal where
  name : String
  stack_offset : Nat
  /-- Flag indicating whether the declaration statement has been
  encountered. -/
  is_declared : Bool
deriving DecidableEq, Repr

/-- `struct Parser`: the lifter state.  `stack` is the simulated operand
stack in `Vec` order (bottom of the stack at the head of the list, pushes
append at the end), holding instruction indices (`Ip`, modelled as `Nat`).
`nodes` has one optional syntax node per instruction. -/
structure Parser where
  proto : Proto
  stack : List Nat
  nodes : List (Option Node)
  /-- Stack of block spans; the top of the `Vec` (its last element) is the
  head of this list. -/
  blocks : List BlockSpan
  /-- Stack offset where local variables end. -/
  local_end : Nat
  locals : List PLocal
  local_namer : Namer

/-- `Parser::new`. -/
def Parser.new (root : Proto) : Parser :=
  { proto := root
    stack := []
    nodes := List.replicate root.code.length none
    blocks := []
    local_end := 0
    locals := []
    local_namer := Namer.new ASCII_CHARS }

-- Small faithful helpers for Rust `Vec`/slice operations. ---------------------

/-- Rust `Vec` indexing `v[i]`: panics when out of bounds. -/
def vecIndex {α : Type} (v : List α) (i : Nat) : Except PFail α :=
  match v.get? i with
  | some a => .ok a
  | none => .error .panic

/-- Rust `Vec::pop`: remove and return the last element, `None` when
empty. -/
def vecPop {α : Type} (v : List α) : Option (α × List α) :=
  match v.getLast? with
  | some a => some (a, v.dropLast)
  | none => none

/-- Rust `Vec::split_off(at)`: `self` keeps `[0, at)`, the returned vector
is `[at, len)`; panics when `at > len`.  Returns (kept, split-off). -/
def vecSplitOff {α : Type} (v : List α) (at_ : Nat) :
    Except PFail (List α × List α) :=
  if at_ ≤ v.length then .ok (v.take at_, v.drop at_)
  else .error .panic

/-- `self.nodes[ip].take()`: read the optional node at `ip` and clear the
slot; panics when `ip` is out of bounds of the nodes buffer. -/
def takeNode (nodes : List (Option Node)) (ip : Nat) :
    Except PFail (Option Node × List (Option Node)) :=
  match nodes.get? ip with
  | some n => .ok (n, nodes.set ip none)
  | none => .error .panic

/-- `self.nodes[ip] = Some(node)`: write a node slot; panics when out of
bounds. -/
def writeNode (nodes : List (Option Node)) (ip : Nat) (n : Node) :
    Except PFail (List (Option Node)) :=
  if ip < nodes.length then .ok (nodes.set ip (some n))
  else .error .panic

/-- Lift an `Option` into the parser monad with the given error for
`None` (Rust `ok_or_else`). -/
def okOr {α : Type} (o : Option α) (e : ParserErr) : Except PFail α :=
  match o with
  | some a => .ok a
  | none => .error (.err e)

/-- `Parser::start_block`: push a new block span. -/
def Parser.start_block (self : Parser) (start end_ : Nat) : Parser :=
  { self with blocks := ⟨start, end_⟩ :: self.blocks }

/-- `Parser::promote_local_var`: promote the node written by instruction
`ip` into a local variable declaration.  Returns whether promotion
happened, plus the updated state. -/
def Parser.promote_local_var (self : Parser) (ip : Nat) :
    Except PFail (Bool × Parser) := do
  let slot ← vecIndex self.nodes ip
  match slot with
  | none => .ok (false, self)
  | some node =>
    if node.is_local_var then .ok (false, self)
    else
      match node with
      | .Expr rhs => do
        -- Generate a new name for the local variable.
        let (name, namer) := self.local_namer.next
        let new_node := Node.Stmt (.LocalVar ⟨⟨name⟩, rhs⟩)
        let nodes ← writeNode self.nodes ip new_node
        .ok (true, { self with
                      nodes := nodes
                      local_namer := namer
                      local_end := self.local_end + 1 })
      | .Stmt _ => .error (.err .stmtPromotion)
      | .Pending _ => .error (.err .pendingPromotion)

/-- `Parser::get_local_var_name`: the name of the local variable whose
slot is `stack[local_id]`, read from the (promoted) node of the
instruction that wrote the slot. -/
def Parser.get_local_var_name (self : Parser) (local_id : Nat) :
    Except PFail String := do
  let node_ip ← vecIndex self.stack local_id
  let slot ← vecIndex self.nodes node_ip
  let node ← okOr slot .nodeNone
  match node with
  | .Stmt (.LocalVar local_var) => .ok local_var.name.text
  | .Stmt _ => .error (.err .unexpectedStmtInLocal)
  | .Expr _ => .error (.err .unexpectedExprInLocal)
  | .Pending _ => .error (.err .unexpectedPendingInLocal)

/-- `Parser::get_global_var_name`: `self.proto.constants.strings[id]`
(an infallible slice index in the source: out of bounds panics). -/
def Parser.get_global_var_name (self : Parser) (string_id : Nat) :
    Except PFail String :=
  vecIndex self.proto.constants.strings string_id

/-- Take, unwrap and coerce to expressions the node fragments of a list of
argument `Ip`s (the `for arg_ip in arg_ips` loop of `parse_call`). -/
def takeArgExprs (nodes : List (Option Node)) :
    List Nat → Except PFail (List Expr × List (Option Node))
  | [] => .ok ([], nodes)
  | ip :: rest => do
    let (slot, nodes) ← takeNode nodes ip
    let node ← okOr slot .nodeNone
    let e ← okOr node.into_expr .exprExpected
    let (es, nodes) ← takeArgExprs nodes rest
    .ok (e :: es, nodes)

/-- `Parser::parse_call`. -/
def Parser.parse_call (self : Parser) (ip stack_offset results : Nat) :
    Except PFail Parser := do
  -- Truncate stack and leave results.
  let (kept, arg_ips) ← vecSplitOff self.stack stack_offset
  -- `arg_ips.remove(0)`: panics when `arg_ips` is empty.
  let (name_ip, arg_ips) ← match arg_ips with
    | [] => .error PFail.panic
    | x :: xs => .ok (x, xs)
  let self := { self with stack := kept ++ List.replicate results ip }
  let (slot, nodes) ← takeNode self.nodes name_ip
  let node ← okOr slot .nodeNone
  let name ← okOr node.into_expr .exprExpected
  let (args, nodes) ← takeArgExprs nodes arg_ips
  let node : Node := if results = 0 then
    -- Zero results implies the function was called as a statement.
    .Stmt (.Call ⟨name, args⟩)
  else
    .Expr (.Call ⟨name, args⟩)
  let nodes ← writeNode nodes ip node
  .ok { self with nodes := nodes }

/-- The `for _ in 0..n { self.stack.pop(); }` loop of `parse_pop`:
`Vec::pop` silently does nothing on an empty vector. -/
def popTimes {α : Type} : Nat → List α → List α
  | 0, v => v
  | n + 1, v => popTimes n v.dropLast

/-- `Parser::parse_pop`: removes `n` slots from the stack; no syntax. -/
def Parser.parse_pop (self : Parser) (n : Nat) : Except PFail Parser :=
  .ok { self with stack := popTimes n self.stack }

/-- `Parser::parse_push_int`. -/
def Parser.parse_push_int (self : Parser) (ip : Nat) (value : Int) :
    Except PFail Parser := do
  let self := { self with stack := self.stack ++ [ip] }
  let nodes ← writeNode self.nodes ip (.Expr (.Literal (.Int value)))
  .ok { self with nodes := nodes }

/-- `Parser::parse_get_local`. -/
def Parser.parse_get_local (self : Parser) (ip stack_offset : Nat) :
    Except PFail Parser := do
  let node_ip ← vecIndex self.stack stack_offset
  let (_, self) ← self.promote_local_var node_ip
  -- Copies the value from the local variable's slot onto the stack top.
  let self := { self with stack := self.stack ++ [ip] }
  let local_name ← self.get_local_var_name stack_offset
  let nodes ← writeNode self.nodes ip (.Expr (.Access ⟨local_name⟩))
  .ok { self with nodes := nodes }

/-- `Parser::parse_get_global`. -/
def Parser.parse_get_global (self : Parser) (ip string_id : Nat) :
    Except PFail Parser := do
  let self := { self with stack := self.stack ++ [ip] }
  let global_name ← self.get_global_var_name string_id
  let nodes ← writeNode self.nodes ip (.Expr (.Access ⟨global_name⟩))
  .ok { self with nodes := nodes }

/-- `Parser::parse_set_local`. -/
def Parser.parse_set_local (self : Parser) (ip stack_offset : Nat) :
    Except PFail Parser := do
  let node_ip ← vecIndex self.stack stack_offset
  let (_, self) ← self.promote_local_var node_ip
  -- Value is moved into the variable.
  let (rhs_ip, stack) ← okOr (vecPop self.stack) .stackUnderflow
  let self := { self with stack := stack }
  let (slot, nodes) ← takeNode self.nodes rhs_ip
  let self := { self with nodes := nodes }
  let node ← okOr slot .nodeNone
  let rhs_node ← okOr node.into_expr .exprExpected
  let name ← self.get_local_var_name stack_offset
  let nodes ← writeNode self.nodes ip (.Stmt (.Assign ⟨⟨name⟩, rhs_node⟩))
  .ok { self with nodes := nodes }

/-- `Parser::parse_binary_op`. -/
def Parser.parse_binary_op (self : Parser) (ip : Nat) (op : BinOp) :
    Except PFail Parser := do
  let (rhs_ip, stack) ← okOr (vecPop self.stack) .stackUnderflow
  let (lhs_ip, stack) ← okOr (vecPop stack) .stackUnderflow
  let (slot, nodes) ← takeNode self.nodes rhs_ip
  let node ← okOr slot .nodeNone
  let rhs ← okOr node.into_expr .exprExpected
  let (slot, nodes) ← takeNode nodes lhs_ip
  let node ← okOr slot .nodeNone
  let lhs ← okOr node.into_expr .exprExpected
  let nodes ← writeNode nodes ip (.Expr (.Binary ⟨op, lhs, rhs⟩))
  .ok { self with stack := stack ++ [ip], nodes := nodes }

/-- `i32::checked_add` on mathematical values. -/
def checked_add_i32 (a b : Int) : Option Int :=
  if -(2 ^ 31) ≤ a + b ∧ a + b < 2 ^ 31 then some (a + b) else none

/-- `Parser::parse_jump_le`.  The destination is relative to the
instruction following the current one: `end = (ip as i32 + 1)
.checked_add(dest)`, validated by `end < 0 || end >= code.len() as i32`. -/
def Parser.parse_jump_le (self : Parser) (ip : Nat) (dest_ip : Int) :
    Except PFail Parser := do
  let e ← match checked_add_i32 (u32_as_i32 ip + 1) dest_ip with
    | some e => pure e
    | none => .error (.err .jumpAddressOverflow)
  if e < 0 ∨ usize_as_i32 self.proto.code.length ≤ e then
    .error (.err .jumpDestOutOfBounds)
  else do
    let self := self.start_block ip e.toNat
    let (rhs_ip, stack) ← okOr (vecPop self.stack) .stackUnderflow
    let (lhs_ip, stack) ← okOr (vecPop stack) .stackUnderflow
    let self := { self with stack := stack }
    let (slot, nodes) ← takeNode self.nodes lhs_ip
    let node ← okOr slot .nodeNone
    let lhs ← okOr node.into_expr .exprExpected
    let (slot, nodes) ← takeNode nodes rhs_ip
    let node ← okOr slot .nodeNone
    let rhs ← okOr node.into_expr .exprExpected
    let nodes ← writeNode nodes ip
      (.Pending (.IfHead ⟨CondExpr.Binary .Le lhs rhs⟩))
    .ok { self with nodes := nodes }

/-- The node-collecting loop of `end_block`: walk the nodes of the
half-open index range starting at `i` with `count` slots, taking each
non-empty slot (clearing it) and collecting the taken nodes in order. -/
def takeRangeNodes : List (Option Node) → Nat → Nat →
    List Node × List (Option Node)
  | nodes, _, 0 => ([], nodes)
  | nodes, i, c + 1 =>
    match nodes.getD i none with
    | some node =>
      let r := takeRangeNodes (nodes.set i none) (i + 1) c
      (node :: r.1, r.2)
    | none => takeRangeNodes nodes (i + 1) c

/-- `Parser::end_block`: close the topmost block span, collecting the
nodes strictly between `start` and `end` into the block body and
replacing the `Partial` head at `start` with the completed statement.
The Rust slice `&mut self.nodes[start+1..end]` panics unless
`start + 1 ≤ end ≤ nodes.len()`. -/
def Parser.end_block (self : Parser) : Except PFail Parser := do
  match self.blocks with
  | [] => .ok self
  | span :: blocks =>
    let self := { self with blocks := blocks }
    if span.start + 1 ≤ span.end_ ∧ span.end_ ≤ self.nodes.length then do
      let (body_nodes, nodes) :=
        takeRangeNodes self.nodes (span.start + 1)
          (span.end_ - (span.start + 1))
      let body := Block.mk body_nodes
      let (slot, nodes) ← takeNode nodes span.start
      let node ← okOr slot .nodeNone
      let head ← okOr node.into_pending .pendingExpected
      match head with
      | .IfHead if_head => do
        let node := Node.Stmt (.If ⟨if_head.expr, body, none⟩)
        -- Place the new node into the header instruction.
        let nodes ← writeNode nodes span.start node
        .ok { self with nodes := nodes }
      | .WhileHead => .error .panic
      | .ForHead => .error .panic
    else .error .panic

/-- The `for (ip, op) in ...enumerate()` loop in `Parser::parse`: close
the topmost block span when `ip` reaches its end marker, then dispatch on
the opcode; `Op::End` breaks out of the loop, `Op::Return` is an
unimplemented no-op in the source. -/
def Parser.parse_loop : Parser → Nat → List Op → Except PFail Parser
  | self, _, [] => .ok self
  | self, ip, op :: rest => do
    let self ← match self.blocks.head? with
      | some block => if ip = block.end_ then self.end_block else pure self
      | none => pure self
    match op with
    | .End => .ok self
    | .Return _ => self.parse_loop (ip + 1) rest
    | .Call stack_offset results => do
      let self ← self.parse_call ip stack_offset results
      self.parse_loop (ip + 1) rest
    | .Pop n => do
      let self ← self.parse_pop n
      self.parse_loop (ip + 1) rest
    | .PushInt value => do
      let self ← self.parse_push_int ip value
      self.parse_loop (ip + 1) rest
    | .GetLocal stack_offset => do
      let self ← self.parse_get_local ip stack_offset
      self.parse_loop (ip + 1) rest
    | .GetGlobal string_id => do
      let self ← self.parse_get_global ip string_id
      self.parse_loop (ip + 1) rest
    | .SetLocal stack_offset => do
      let self ← self.parse_set_local ip stack_offset
      self.parse_loop (ip + 1) rest
    | .Add => do
      let self ← self.parse_binary_op ip .Add
      self.parse_loop (ip + 1) rest
    | .JumpLe dest_ip => do
      let self ← self.parse_jump_le ip dest_ip
      self.parse_loop (ip + 1) rest

/-- `Parser::parse`: run the instruction loop, then linearize the
remaining nodes (in instruction order, taking each out of its slot) into
the root block.  Returns the syntax tree together with the final parser
state (the embedding of `&mut self`). -/
def Parser.parse (self : Parser) : Except PFail (SyntaxTree × Parser) := do
  let self ← self.parse_loop 0 self.proto.ops
  let block := Block.mk (self.nodes.filterMap id)
  let self := { self with nodes := List.replicate self.nodes.length none }
  .ok (⟨block, ()⟩, self)

-- ===========================================================================
-- Scribe (`src/lua40/scribe.rs`)
-- ===========================================================================

/-- Scribe failure: the only failures reachable with an infallible string
writer are the source's panics (`panic!("partially built statement")` in
`fmt_node`, and the `todo!()`s in `fmt_lit` for `Num`/`Str` and in
`fmt_cond_expr` for `Unary`). -/
inductive SFail where
  | panic
deriving DecidableEq, Repr

/-- `struct Scribe`: the pretty-printer state, an indentation level. -/
structure Scribe where
  level : Nat
deriving DecidableEq, Repr

/-- `Scribe::new`. -/
def Scribe.new : Scribe :=
  { level := 0 }

/-- `Scribe::fmt_indent`: write four spaces per indentation level. -/
def Scribe.fmt_indent (self : Scribe) (f : String) : String :=
  (List.range self.level).foldl (fun acc _ => acc ++ "    ") f

/-- `Scribe::fmt_access`: write the identifier text. -/
def Scribe.fmt_access (self : Scribe) (f : String) (ident : Ident) :
    Except SFail (Scribe × String) :=
  .ok (self, f ++ ident.text)

/-- `Scribe::fmt_lit`: integers in decimal; the `Num` and `Str` arms are
`todo!()` in the source (a panic). -/
def Scribe.fmt_lit (self : Scribe) (f : String) (lit : Lit) :
    Except SFail (Scribe × String) :=
  match lit with
  | .Int value => .ok (self, f ++ toString value)
  | .Num _ => .error .panic
  | .Str _ => .error .panic

mutual
/-- `Scribe::fmt_expr`. -/
def Scribe.fmt_expr (self : Scribe) (f : String) :
    Expr → Except SFail (Scribe × String)
  | .Access ident => self.fmt_access f ident
  | .Literal lit => self.fmt_lit f lit
  | .Binary bin_expr => self.fmt_binary_expr f bin_expr
  | .Call call => self.fmt_call f call

/-- `Scribe::fmt_binary_expr`. -/
def Scribe.fmt_binary_expr (self : Scribe) (f : String) :
    BinExpr → Except SFail (Scribe × String)
  | .mk op lhs rhs => do
    let (self, f) ← self.fmt_expr f lhs
    let f := f ++ " "
    let f := match op with
      | BinOp.Add => f ++ "+"
    let f := f ++ " "
    self.fmt_expr f rhs

/-- `Scribe::fmt_call`: callee, parenthesized comma-separated
arguments. -/
def Scribe.fmt_call (self : Scribe) (f : String) :
    Call → Except SFail (Scribe × String)
  | .mk name args => do
    let (self, f) ← self.fmt_expr f name
    let f := f ++ "("
    let (self, f) ← Scribe.fmt_call_args self f true args
    .ok (self, f ++ ")")

/-- The `for (i, arg) in call.args.iter().enumerate()` loop of
`fmt_call`: `first` tracks `i == 0` (no separator before the first
argument). -/
def Scribe.fmt_call_args (self : Scribe) (f : String) (first : Bool) :
    List Expr → Except SFail (Scribe × String)
  | [] => .ok (self, f)
  | arg :: rest => do
    let f := if first then f else f ++ ", "
    let (self, f) ← self.fmt_expr f arg
    Scribe.fmt_call_args self f false rest
end

/-- `Scribe::fmt_cond_expr`: the `Unary` arm is `todo!()`. -/
def Scribe.fmt_cond_expr (self : Scribe) (f : String) :
    CondExpr → Except SFail (Scribe × String)
  | .Unary _ _ => .error .panic
  | .Binary op lhs rhs => do
    let (self, f) ← self.fmt_expr f lhs
    let f := f ++ " "
    let f := match op with
      | CondOp.Ne => f ++ "~="
      | CondOp.Eq => f ++ "=="
      | CondOp.Lt => f ++ "<"
      | CondOp.Le => f ++ "<="
      | CondOp.Gt => f ++ ">"
      | CondOp.Ge => f ++ ">="
    let f := f ++ " "
    self.fmt_expr f rhs

/-- `Scribe::fmt_local_var`: `local {name} = {rhs}` plus newline. -/
def Scribe.fmt_local_var (self : Scribe) (f : String) (local_var : LocalVar) :
    Except SFail (Scribe × String) := do
  let f := f ++ "local " ++ local_var.name.text ++ " = "
  let (self, f) ← self.fmt_expr f local_var.rhs
  .ok (self, f ++ "\n")

/-- `Scribe::fmt_assign`: `{name} = {rhs}` plus newline. -/
def Scribe.fmt_assign (self : Scribe) (f : String) (assign : Assign) :
    Except SFail (Scribe × String) := do
  let f := f ++ assign.name.text ++ " = "
  let (self, f) ← self.fmt_expr f assign.rhs
  .ok (self, f ++ "\n")

mutual
/-- `Scribe::fmt_node`: a `Partial` (`Pending`) node at print time is
`panic!("partially built statement")`. -/
def Scribe.fmt_node (self : Scribe) (f : String) :
    Node → Except SFail (Scribe × String)
  | .Stmt stmt => self.fmt_stmt f stmt
  | .Expr expr => self.fmt_expr f expr
  | .Pending _ => .error .panic

/-- `Scribe::fmt_stmt`. -/
def Scribe.fmt_stmt (self : Scribe) (f : String) :
    Stmt → Except SFail (Scribe × String)
  | .LocalVar local_var => self.fmt_local_var f local_var
  | .Call call => self.fmt_call f call
  | .Assign assign => self.fmt_assign f assign
  | .Block block => self.fmt_block_stmt f block
  | .If if_block => self.fmt_if_block f if_block

/-- `Scribe::fmt_block_stmt`: `do`, indented body (`with_indent` inlined:
increment the level, format the body, decrement on success; the inner
`fmt_block` call on the same block value is inlined as its node loop so
that the recursion stays structural). -/
def Scribe.fmt_block_stmt (self : Scribe) (f : String) :
    Block → Except SFail (Scribe × String)
  | .mk nodes => do
    let f := f ++ "do\n"
    let (self, f) ←
      Scribe.fmt_block_nodes { self with level := self.level + 1 } f nodes
    let self := { self with level := self.level - 1 }
    .ok (self, f ++ "end\n")

/-- `Scribe::fmt_if_block`: head, indented body via `with_indent`
(inlined: increment, format, decrement on success), optional `else` arm,
`end`. -/
def Scribe.fmt_if_block (self : Scribe) (f : String) :
    IfBlock → Except SFail (Scribe × String)
  | .mk head then_ else_ => do
    let f := f ++ "if "
    let (self, f) ← self.fmt_cond_expr f head
    let f := f ++ " then\n"
    let (self, f) ←
      Scribe.fmt_block { self with level := self.level + 1 } f then_
    let self := { self with level := self.level - 1 }
    match else_ with
    | some else_block => do
      let f := f ++ "else\n"
      let (self, f) ←
        Scribe.fmt_block { self with level := self.level + 1 } f else_block
      let self := { self with level := self.level - 1 }
      .ok (self, f ++ "end\n")
    | none => .ok (self, f ++ "end\n")

/-- `Scribe::fmt_block`: for each node, indentation then the node. -/
def Scribe.fmt_block (self : Scribe) (f : String) :
    Block → Except SFail (Scribe × String)
  | .mk nodes => Scribe.fmt_block_nodes self f nodes

/-- The `for node in &block.nodes` loop of `fmt_block`. -/
def Scribe.fmt_block_nodes (self : Scribe) (f : String) :
    List Node → Except SFail (Scribe × String)
  | [] => .ok (self, f)
  | node :: rest => do
    let f := self.fmt_indent f
    let (self, f) ← self.fmt_node f node
    Scribe.fmt_block_nodes self f rest
end

/-- `Scribe::fmt_syntax` (named for the `SyntaxTree` rename): format the
root block. -/
def Scribe.fmt_syntax_tree (self : Scribe) (f : String)
    (stx : SyntaxTree) : Except SFail (Scribe × String) :=
  self.fmt_block f stx.root

-- ===========================================================================
-- Concrete test chunks (inputs for the theorems below)
-- ===========================================================================

/-- The header of a standard little-endian Lua 4.0 chunk as emitted by
`luac` on x86: 4-byte ints and sizes, 32-bit instruction words with
6 opcode bits and 9 `B` bits, 8-byte doubles. -/
def std_header : Header :=
  { version := 0x40, endianess := .Little, size_int := 4, size_t := 4,
    size_instr := 4, size_instr_arg := 32, size_op := 6, size_b := 9,
    number_type := .F64 }

/-- Bytecode of `local x = 1 + 2` (debug stripped):
`PushInt 1; PushInt 2; Add; End`.  The raw words are the `std_header`
encodings of the decoded ops. -/
def proto_add : Proto :=
  .mk [2147483654, 2147483718, 23, 0]
      [.PushInt 1, .PushInt 2, .Add, .End]
      "@test.lua" 0 0 false 2 [] (.mk [] [] []) [1, 1, 1, 1]

/-- Bytecode of `local x = 1` (debug stripped): `PushInt 1; End`. -/
def proto_push : Proto :=
  .mk [2147483654, 0] [.PushInt 1, .End]
      "@test.lua" 0 0 false 1 [] (.mk [] [] []) [1, 1]

/-- A prototype whose conditional jump targets the instruction after an
earlier `End`: `PushInt 1; PushInt 2; JumpLe +1; End; End`.  The jump
destination is `2 + 1 + 1 = 4 < code.len() = 5`, so the jump is in
bounds, but the loop breaks at the first `End` (ip 3) before ip 4 closes
the span. -/
def proto_jump_past_end : Proto :=
  .mk [2147483654, 2147483718, 2147483683, 0, 0]
      [.PushInt 1, .PushInt 2, .JumpLe 1, .End, .End]
      "@test.lua" 0 0 false 2 [] (.mk [] [] []) [1, 1, 1, 1, 1]

/-- `PushInt 1; PushInt 2; JumpLe +1; End`: the jump destination is
`2 + 1 + 1 = 4 = code.len()`. -/
def proto_jump_to_len : Proto :=
  .mk [2147483654, 2147483718, 2147483683, 0]
      [.PushInt 1, .PushInt 2, .JumpLe 1, .End]
      "@test.lua" 0 0 false 2 [] (.mk [] [] []) [1, 1, 1, 1]

/-- A call with the MULTRET result count: `GetGlobal "print";
Call A=0 B=255; End`. -/
def proto_call_multret : Proto :=
  .mk [12, 16322, 0]
      [.GetGlobal 0, .Call 0 255, .End]
      "@test.lua" 0 0 false 2 [] (.mk ["print"] [] []) [1, 1, 1]

/-- A syntax tree with one `if` statement whose body holds one local
declaration (pretty-printer input for the indentation theorems). -/
def if_syntax_tree : SyntaxTree :=
  ⟨.mk [.Stmt (.If ⟨CondExpr.Binary .Le (.Literal (.Int 1))
                      (.Literal (.Int 2)),
                    .mk [.Stmt (.LocalVar ⟨⟨"x"⟩, .Literal (.Int 3)⟩)],
                    none⟩)], ()⟩

/-- The opcode values (0..=48) whose `decode_op` arm is `todo!()` in the
source: every documented opcode except the ten implemented ones
(`End`, `Return`, `Call`, `Pop`, `PushInt`, `GetLocal`, `GetGlobal`,
`SetLocal`, `Add`, `JumpLe`). -/
def todo_opcode_values : List Nat :=
  [3, 4, 7, 8, 9, 10, 13, 14, 15, 16, 17, 19, 20, 21, 22,
   24, 25, 26, 27, 28, 29, 30, 31, 32, 33, 34, 36, 37,
   38, 39, 40, 41, 42, 43, 44, 45, 46, 47, 48]

-- ===========================================================================
-- Induction motives for the Scribe indentation-restoration proof
-- ===========================================================================

/-- `fmt_expr` on this expression returns the Scribe state it was given. -/
def PreservesExpr (e : Expr) : Prop :=
  ∀ (sc : Scribe) (f : String) (r : Scribe × String),
    Scribe.fmt_expr sc f e = .ok r → r.1 = sc

/-- `fmt_binary_expr` on this operator node returns its input state. -/
def PreservesBin (b : BinExpr) : Prop :=
  ∀ (sc : Scribe) (f : String) (r : Scribe × String),
    Scribe.fmt_binary_expr sc f b = .ok r → r.1 = sc

/-- `fmt_call` on this call returns its input state. -/
def PreservesCall (c : Call) : Prop :=
  ∀ (sc : Scribe) (f : String) (r : Scribe × String),
    Scribe.fmt_call sc f c = .ok r → r.1 = sc

/-- The argument loop of `fmt_call` returns its input state. -/
def PreservesArgs (l : List Expr) : Prop :=
  ∀ (sc : Scribe) (f : String) (first : Bool) (r : Scribe × String),
    Scribe.fmt_call_args sc f first l = .ok r → r.1 = sc

/-- `fmt_node` on this node returns the Scribe state it was given (level
restored). -/
def PreservesNode (n : Node) : Prop :=
  ∀ (sc : Scribe) (f : String) (r : Scribe × String),
    Scribe.fmt_node sc f n = .ok r → r.1 = sc

/-- `fmt_stmt` on this statement restores the Scribe state. -/
def PreservesStmt (s : Stmt) : Prop :=
  ∀ (sc : Scribe) (f : String) (r : Scribe × String),
    Scribe.fmt_stmt sc f s = .ok r → r.1 = sc

/-- `fmt_if_block` on this `if` statement restores the Scribe state. -/
def PreservesIf (ib : IfBlock) : Prop :=
  ∀ (sc : Scribe) (f : String) (r : Scribe × String),
    Scribe.fmt_if_block sc f ib = .ok r → r.1 = sc

/-- `fmt_block` and `fmt_block_stmt` on this block restore the Scribe
state. -/
def PreservesBlock (b : Block) : Prop :=
  (∀ (sc : Scribe) (f : String) (r : Scribe × String),
    Scribe.fmt_block sc f b = .ok r → r.1 = sc) ∧
  (∀ (sc : Scribe) (f : String) (r : Scribe × String),
    Scribe.fmt_block_stmt sc f b = .ok r → r.1 = sc)

/-- Auxiliary motive for the optional `else` block. -/
def PreservesOptBlock (ob : Option Block) : Prop :=
  ∀ b, ob = some b → PreservesBlock b

/-- The node loop of `fmt_block` restores the Scribe state. -/
def PreservesNodes (l : List Node) : Prop :=
  ∀ (sc : Scribe) (f : String) (r : Scribe × String),
    Scribe.fmt_block_nodes sc f l = .ok r → r.1 = sc

-- ===========================================================================
-- Theorems
-- ===========================================================================

/-- C1 counterexample: on `PushInt 1; PushInt 2; Add; End` the parser
succeeds, but the pretty-printed output is the bare expression `1 + 2`
(no newline), not the claimed local declaration `local a = 1 + 2`
followed by a newline: no `GetLocal`/`SetLocal` addresses the slot, so
`promote_local_var` never runs. -/
theorem c1_counterexample :
    (match (Parser.new proto_add).parse with
     | .ok (stx, _) => (Scribe.new.fmt_syntax_tree "" stx).map Prod.snd
     | .error _ => .error SFail.panic) = .ok "1 + 2" ∧
    "1 + 2" ≠ "local a = 1 + 2\n" :=
  ⟨rfl, by decide⟩

/-- C1 (amended): on `PushInt 1; PushInt 2; Add; End`, `Parser::parse`
succeeds with a root block holding the single expression node `1 + 2`,
and `Scribe::fmt_syntax` writes exactly the text `1 + 2` (an expression
node gets no `local` prefix and no trailing newline). -/
theorem c1_theorem :
    ((Parser.new proto_add).parse).map (fun x => x.1.root.nodes) =
      .ok [.Expr (.Binary ⟨.Add, .Literal (.Int 1), .Literal (.Int 2)⟩)] ∧
    (match (Parser.new proto_add).parse with
     | .ok (stx, _) => (Scribe.new.fmt_syntax_tree "" stx).map Prod.snd
     | .error _ => .error SFail.panic) = .ok "1 + 2" :=
  ⟨rfl, rfl⟩

/-- C3 counterexample: on `PushInt 1; End` the parse returns `Ok`, yet
the simulated operand stack still holds the entry `Ip 0` at that moment
— it is not empty. -/
theorem c3_counterexample :
    ((Parser.new proto_push).parse).map (fun x => x.2.stack) = .ok [0] ∧
    ([0] : List Nat) ≠ [] :=
  ⟨rfl, by decide⟩

/-- C3 (amended): `Parser::parse` performs no end-of-parse emptiness
check on the simulated stack; a successful parse can leave it nonempty.
On `PushInt 1; End` the final stack is `[Ip 0]`, and on
`PushInt 1; PushInt 2; Add; End` it is `[Ip 2]`. -/
theorem c3_theorem :
    ((Parser.new proto_push).parse).map (fun x => x.2.stack) = .ok [0] ∧
    ((Parser.new proto_add).parse).map (fun x => x.2.stack) = .ok [2] :=
  ⟨rfl, rfl⟩

/-- C4: on `PushInt 1; PushInt 2; JumpLe +1; End; End` the jump opens a
block span ending at ip 4, the loop breaks at the first `End` (ip 3)
before the span closes, and the final linearization happily collects the
surviving `Partial::IfHead` into the returned `Syntax` — `parse` returns
`Ok` instead of the error the specification requires. -/
theorem c4_theorem :
    ((Parser.new proto_jump_past_end).parse).map (fun x => x.1.root.nodes) =
      .ok [.Pending (.IfHead ⟨CondExpr.Binary .Le (.Literal (.Int 1))
                                (.Literal (.Int 2))⟩)] :=
  rfl

/-- C6: on `GetGlobal "print"; Call A=0 B=255; End` the parser treats
the MULTRET sentinel 255 as a literal result count: it pushes the call's
`Ip` 255 times onto the simulated stack and stores a plain `Expr::Call`
node carrying no "multiple returns" marker (no such marker exists in the
AST). -/
theorem c6_theorem :
    ((Parser.new proto_call_multret).parse).map
        (fun x => (x.1.root.nodes, x.2.stack)) =
      .ok ([.Expr (.Call ⟨.Access ⟨"print"⟩, []⟩)],
           List.replicate 255 1) :=
  rfl

/-- C7 counterexample: on `PushInt 1; PushInt 2; JumpLe +1; End` the
jump destination is `end = 2 + 1 + 1 = 4 = code.len()`; the claim says
such a jump is accepted, but the parse fails with the
jump-destination-out-of-bounds error. -/
theorem c7_counterexample :
    (Parser.new proto_jump_to_len).parse =
      .error (.err .jumpDestOutOfBounds) :=
  rfl

/-- C5 counterexample: decoding the instruction word 3 (`TailCall` with
`U = 0`) under the standard header hits the `todo!()` arm of
`decode_op` — the process aborts (modelled `.error .panic`) instead of
producing an `Ok` or a structured decoder error. -/
theorem c5_counterexample :
    decode_op std_header 3 = .error DFail.panic :=
  rfl

/-- C8 counterexample: under the standard header (`u_bits = 26`), the
word encoding `PushInt` with the maximal unsigned argument
`U = 2^26 - 1` decodes to `S = 2^25 = 33554432`, violating the claimed
strict bound `S < 2^(u_bits - 1) = 2^25`. -/
theorem c8_counterexample :
    decode_op std_header 4294967238 = .ok (.PushInt 33554432) ∧
    ¬ ((33554432 : Int) < 2 ^ (std_header.size_u - 1)) :=
  ⟨rfl, by decide⟩

/-- C2 counterexample: `read_u32` under `Endian::Big` on the bytes
`[0, 0, 0, 1]` returns the little-endian value `2^24 = 16777216`, not
the big-endian value `b0<<24 | b1<<16 | b2<<8 | b3 = 1` the claim
requires. -/
theorem c2_counterexample :
    read_u32 Endian.Big [0, 0, 0, 1] = .ok (16777216, []) ∧
    (16777216 : Nat) ≠ (0 <<< 24) ||| (0 <<< 16) ||| (0 <<< 8) ||| 1 :=
  ⟨rfl, by decide⟩

/-- C9 counterexample: the 27th call of `Namer::next` (count = 26)
returns `"ab"`, not the claimed `"aa"` — after wrapping, the characters
advance together with the count instead of enumerating
lexicographically. -/
theorem c9_counterexample :
    Namer.nth (Namer.new ASCII_CHARS) 26 = "ab" ∧ "ab" ≠ "aa" :=
  ⟨rfl, by decide⟩

/-- C2 (amended): the multi-byte integer reads ignore the endianness flag
— both match arms call `from_le_bytes` — so under either flag the result
is the little-endian interpretation; in particular `read_u32` under
`Endian::Big` on bytes `b0, b1, b2, b3` returns
`b0 + b1*2^8 + b2*2^16 + b3*2^24`. -/
theorem c2_theorem :
    (∀ (e : Endian) (input : List Nat),
        read_u16 e input = read_u16 .Little input ∧
        read_u32 e input = read_u32 .Little input ∧
        read_u64 e input = read_u64 .Little input) ∧
    (∀ b0 b1 b2 b3 rest, b0 < 256 → b1 < 256 → b2 < 256 → b3 < 256 →
        read_u32 Endian.Big (b0 :: b1 :: b2 :: b3 :: rest) =
          .ok (b0 + b1 * 2 ^ 8 + b2 * 2 ^ 16 + b3 * 2 ^ 24, rest)) := by
  constructor
  · intro e input
    cases e <;> exact ⟨rfl, rfl, rfl⟩
  · intro b0 b1 b2 b3 rest h0 h1 h2 h3
    simp [read_u32, read_exact, from_le_bytes, Bind.bind, Except.bind]
    omega

/-- C2 witness: the amended read formula evaluated on the concrete
bytes `[1, 2, 3, 4]`. -/
theorem c2_witness :
    (1 : Nat) < 256 ∧
    read_u32 Endian.Big [1, 2, 3, 4] =
      .ok (1 + 2 * 2 ^ 8 + 3 * 2 ^ 16 + 4 * 2 ^ 24, []) :=
  ⟨by decide, c2_theorem.2 1 2 3 4 [] (by decide) (by decide) (by decide)
      (by decide)⟩

/-- Shift lemma for the name generator: the `k`-th call of `next` sees
`count` advanced by `k`. -/
theorem nth_shift (nm : Namer) :
    ∀ k, nm.nth k = (Namer.mk nm.chars nm.cursor (nm.count + k)).next.1 := by
  intro k
  induction k generalizing nm with
  | zero => cases nm; simp [Namer.nth]
  | succ k ih =>
    cases nm with
    | mk ch cu co =>
      show Namer.nth (Namer.next ⟨ch, cu, co⟩).2 k = _
      rw [ih]
      have : co + 1 + k = co + (k + 1) := by omega
      simp [Namer.next, this]

/-- C9 (amended): the first 26 calls of `Namer::next` return `a`..`z` in
order; after the wrap the `k`-th call (0-based) returns a name of
`k / 26 + 1` characters whose letters advance together with the count
(`chars[(k + i) % 26]`): call 27 yields `"ab"`, call 28 `"bc"`, call 53
`"abc"` — not the lexicographic `aa, ab, …` sequence. -/
theorem c9_theorem :
    ((List.range 26).map (Namer.nth (Namer.new ASCII_CHARS)) =
      ["a", "b", "c", "d", "e", "f", "g", "h", "i", "j", "k", "l", "m",
       "n", "o", "p", "q", "r", "s", "t", "u", "v", "w", "x", "y", "z"]) ∧
    Namer.nth (Namer.new ASCII_CHARS) 26 = "ab" ∧
    Namer.nth (Namer.new ASCII_CHARS) 27 = "bc" ∧
    Namer.nth (Namer.new ASCII_CHARS) 52 = "abc" ∧
    ∀ k, (Namer.nth (Namer.new ASCII_CHARS) k).length = k / 26 + 1 := by
  refine ⟨by decide, rfl, rfl, rfl, ?_⟩
  intro k
  rw [show Namer.new ASCII_CHARS = ⟨ASCII_CHARS, 0, 0⟩ from rfl, nth_shift]
  simp [Namer.next, String.length]
  rfl

/-- Range of the decoded signed argument: over `U < 2^u_bits`,
`S = U - max_arg_s` lies in `(-2^(u_bits-1), 2^(u_bits-1)]`. -/
theorem arg_s_bounds (h : Header) (u : Nat)
    (h1 : 1 ≤ h.size_u) (h31 : h.size_u ≤ 31) (hu : u < 2 ^ h.size_u) :
    -(2 ^ (h.size_u - 1) : Int) < arg_s h u ∧
      arg_s h u ≤ 2 ^ (h.size_u - 1) := by
  set k := h.size_u with hk
  have hpow : (2 : Nat) ^ k = 2 * 2 ^ (k - 1) := by
    conv_lhs => rw [show k = (k - 1) + 1 by omega]
    ring
  have hle : (2 : Nat) ^ k ≤ 2 ^ 31 := Nat.pow_le_pow_right (by norm_num) h31
  have hmau : h.max_arg_u = 2 ^ k - 1 := by
    simp [Header.max_arg_u, Nat.shiftLeft_eq, hk]
  have hmau31 : h.max_arg_u < 2 ^ 31 := by omega
  have hu31 : u < 2 ^ 31 := by omega
  have hcast1 : u32_as_i32 h.max_arg_u = (h.max_arg_u : Int) := by
    unfold u32_as_i32
    rw [if_pos (show h.max_arg_u < 2 ^ 31 by omega)]
  have hcast2 : u32_as_i32 u = (u : Int) := by
    unfold u32_as_i32
    rw [if_pos (show u < 2 ^ 31 by omega)]
  have hms : h.max_arg_s = (2 : Int) ^ (k - 1) - 1 := by
    rw [Header.max_arg_s, i32_shr, hcast1, Int.fdiv_eq_ediv, hmau]
    have hNat : ((2 : Nat) ^ k - 1) / 2 = 2 ^ (k - 1) - 1 := by omega
    have hb : ((2 : Int) ^ (k - 1)) = ((2 ^ (k - 1) : Nat) : Int) := by
      push_cast
      ring
    omega
    norm_num
  unfold arg_s
  rw [hcast2, hms]
  have hp1 : (0 : Int) < 2 ^ (k - 1) := by positivity
  have huI : (u : Int) < 2 * 2 ^ (k - 1) := by
    have : (u : Int) < ((2 ^ k : Nat) : Int) := by exact_mod_cast hu
    rw [hpow] at this
    push_cast at this
    omega
  omega

/-- Every `Op` with an `S` field produced by `decode_op` carries exactly
the `arg_s` of the word's `U` field. -/
theorem decode_op_S_shape (h : Header) (w : Nat) (v : Int)
    (hdec : decode_op h w = .ok (.PushInt v) ∨
            decode_op h w = .ok (.JumpLe v)) :
    v = arg_s h (w >>> h.size_op) := by
  cases hOp : Opcode.tryFrom (w &&& mask1 h.size_op 0) with
  | error e => rcases hdec with hd | hd <;> simp [decode_op, hOp] at hd
  | ok opcode =>
    rcases hdec with hd | hd <;> cases opcode <;>
      simp [decode_op, hOp] at hd <;> omega

/-- C8 (amended): for every 32-bit word that `decode_op` turns into an
`Op` carrying an `S` field (`PushInt`, `JumpLe`) under a header with
`1 ≤ u_bits ≤ 31` and `size_op + u_bits = size_instr_arg`, the decoded
value satisfies `-2^(u_bits-1) < S ≤ 2^(u_bits-1)` — the maximum
`2^(u_bits-1)` is attained (see the counterexample), so the claimed
strict upper bound is off by one. -/
theorem c8_theorem (h : Header) (w : Nat) (v : Int)
    (h1 : 1 ≤ h.size_u) (h31 : h.size_u ≤ 31)
    (hop : h.size_op + h.size_u = h.size_instr_arg)
    (hw : w < 2 ^ h.size_instr_arg)
    (hdec : decode_op h w = .ok (.PushInt v) ∨
            decode_op h w = .ok (.JumpLe v)) :
    -(2 ^ (h.size_u - 1) : Int) < v ∧ v ≤ 2 ^ (h.size_u - 1) := by
  have hv := decode_op_S_shape h w v hdec
  have hub : w >>> h.size_op < 2 ^ h.size_u := by
    rw [Nat.shiftRight_eq_div_pow]
    apply Nat.div_lt_of_lt_mul
    calc w < 2 ^ h.size_instr_arg := hw
    _ = 2 ^ h.size_op * 2 ^ h.size_u := by rw [← pow_add, hop]
  rw [hv]
  exact arg_s_bounds h _ h1 h31 hub

/-- C8 witness: the amended bound instantiated at the standard header on
the word encoding `PushInt 1`. -/
theorem c8_witness :
    decode_op std_header 2147483654 = .ok (.PushInt 1) ∧
    (-(2 ^ (std_header.size_u - 1) : Int) < 1 ∧
      (1 : Int) ≤ 2 ^ (std_header.size_u - 1)) :=
  ⟨rfl, c8_theorem std_header 2147483654 1 (by decide) (by decide)
      (by decide) (by decide) (Or.inl rfl)⟩

/-- C5 (amended): under the standard header, `decode_op` aborts the
process (the `todo!()` arms) exactly when the word's opcode field is one
of the 39 unimplemented documented opcodes; the ten implemented opcodes
produce `Ok` and opcode values above 48 produce the structured
unknown-opcode error, never a panic. -/
theorem c5_theorem (w : Nat) :
    decode_op std_header w = .error DFail.panic ↔
      (w % 64) ∈ todo_opcode_values := by
  have hm : w &&& mask1 std_header.size_op 0 = w % 64 := by
    rw [show mask1 std_header.size_op 0 = 63 from by decide]
    simpa using Nat.and_pow_two_sub_one_eq_mod w 6
  have hk : w % 64 < 64 := Nat.mod_lt _ (by norm_num)
  unfold decode_op
  rw [hm]
  generalize hgen : w % 64 = k at hk ⊢
  interval_cases k <;> simp [Opcode.tryFrom, todo_opcode_values]

/-- `ok_or_else` never produces a parser error other than the one it was
given. -/
theorem okOr_ne {α : Type} (o : Option α) (e e' : ParserErr) (h : e ≠ e') :
    okOr o e ≠ .error (.err e') := by
  cases o <;> simp [okOr, h]

/-- A nodes-buffer `take` can only panic, never raise a parser error. -/
theorem takeNode_ne (nodes : List (Option Node)) (i : Nat) (E : ParserErr) :
    takeNode nodes i ≠ .error (.err E) := by
  unfold takeNode
  cases h : nodes.get? i <;> simp

/-- A nodes-buffer write can only panic, never raise a parser error. -/
theorem writeNode_ne (nodes : List (Option Node)) (i : Nat) (n : Node)
    (E : ParserErr) : writeNode nodes i n ≠ .error (.err E) := by
  unfold writeNode
  split <;> simp

/-- C7 (amended): for a `JumpLe` at instruction `ip` with offset `S`,
writing `end = ip + 1 + S`, `parse_jump_le` raises the
jump-destination-out-of-bounds error exactly when `end < 0` or
`end ≥ code.len()` — the destination `end = code.len()` is REJECTED
(the source guard is `end < 0 || end >= code.len()`), contrary to the
claimed inclusive bound.  The range hypotheses keep the `i32` casts and
`checked_add` away from wrap-around. -/
theorem c7_theorem (self : Parser) (ip : Nat) (dest_ip : Int)
    (hip : ip < 2 ^ 31)
    (hlen : self.proto.code.length < 2 ^ 31)
    (hlo : -(2 ^ 31) ≤ (ip : Int) + 1 + dest_ip)
    (hhi : (ip : Int) + 1 + dest_ip < 2 ^ 31) :
    (self.parse_jump_le ip dest_ip = .error (.err .jumpDestOutOfBounds) ↔
      ((ip : Int) + 1 + dest_ip < 0 ∨
        (self.proto.code.length : Int) ≤ (ip : Int) + 1 + dest_ip)) := by
  have h32 : u32_as_i32 ip = (ip : Int) := by
    unfold u32_as_i32
    rw [if_pos hip]
  have hca : checked_add_i32 ((ip : Int) + 1) dest_ip =
      some ((ip : Int) + 1 + dest_ip) := by
    unfold checked_add_i32
    rw [if_pos ⟨hlo, hhi⟩]
  have hl32 : usize_as_i32 self.proto.code.length =
      (self.proto.code.length : Int) := by
    unfold usize_as_i32 u32_as_i32
    rw [Nat.mod_eq_of_lt (by omega : self.proto.code.length < 2 ^ 32),
        if_pos hlen]
  unfold Parser.parse_jump_le
  rw [h32, hca, hl32]
  simp only [pure, Except.pure, Bind.bind, Except.bind]
  by_cases hC : (ip : Int) + 1 + dest_ip < 0 ∨
      (self.proto.code.length : Int) ≤ (ip : Int) + 1 + dest_ip
  · rw [if_pos hC]
    simp [hC]
  · rw [if_neg hC]
    constructor
    · intro hEq
      exfalso
      repeat' (split at hEq)
      all_goals
        try (rename_i e heq
             injection hEq with hinj
             subst hinj
             first
             | exact okOr_ne _ _ _ (by decide) heq
             | exact takeNode_ne _ _ _ heq
             | exact writeNode_ne _ _ _ _ heq)
      all_goals simp at hEq
    · intro hOr
      exact absurd hOr hC

/-- C7 witness: the amended acceptance condition instantiated on the
fresh parser for the `end = code.len()` chunk at ip 2 with offset +1:
the guard fires because `4 ≥ code.len() = 4`. -/
theorem c7_witness :
    ((Parser.new proto_jump_to_len).parse_jump_le 2 1 =
        .error (.err .jumpDestOutOfBounds) ↔
      ((2 : Int) + 1 + 1 < 0 ∨
        (((Parser.new proto_jump_to_len).proto.code.length : Int) ≤
          (2 : Int) + 1 + 1))) :=
  c7_theorem (Parser.new proto_jump_to_len) 2 1 (by decide) (by decide)
    (by decide) (by decide)

theorem except_bind_ok {ε α β : Type} (x : Except ε α) (g : α → Except ε β)
    (r : β) : (x >>= g = .ok r) ↔ ∃ a, x = .ok a ∧ g a = .ok r := by
  cases x <;> simp [Bind.bind, Except.bind]

theorem pres_access (ident : Ident) : PreservesExpr (.Access ident) := by
  intro sc f r h
  simp only [Scribe.fmt_expr, Scribe.fmt_access, Except.ok.injEq] at h
  subst h
  rfl

theorem pres_literal (lit : Lit) : PreservesExpr (.Literal lit) := by
  intro sc f r h
  cases lit with
  | Int v =>
    simp only [Scribe.fmt_expr, Scribe.fmt_lit, Except.ok.injEq] at h
    subst h
    rfl
  | Num bits => simp [Scribe.fmt_expr, Scribe.fmt_lit] at h
  | Str s => simp [Scribe.fmt_expr, Scribe.fmt_lit] at h

theorem pres_bin_mk (op : BinOp) (lhs rhs : Expr)
    (ih1 : PreservesExpr lhs) (ih2 : PreservesExpr rhs) :
    PreservesBin (.mk op lhs rhs) := by
  intro sc f r h
  simp only [Scribe.fmt_binary_expr, except_bind_ok] at h
  obtain ⟨a, h1, h2⟩ := h
  rw [ih2 _ _ _ h2, ih1 _ _ _ h1]

theorem pres_call_mk (name : Expr) (args : List Expr)
    (ih1 : PreservesExpr name) (ih2 : PreservesArgs args) :
    PreservesCall (.mk name args) := by
  intro sc f r h
  simp only [Scribe.fmt_call, except_bind_ok] at h
  obtain ⟨a, h1, b, h2, h3⟩ := h
  cases h3
  rw [ih2 _ _ _ _ h2, ih1 _ _ _ h1]

theorem pres_args_nil : PreservesArgs [] := by
  intro sc f first r h
  simp only [Scribe.fmt_call_args, Except.ok.injEq] at h
  subst h
  rfl

theorem pres_args_cons (head : Expr) (tail : List Expr)
    (ih1 : PreservesExpr head) (ih2 : PreservesArgs tail) :
    PreservesArgs (head :: tail) := by
  intro sc f first r h
  simp only [Scribe.fmt_call_args, except_bind_ok] at h
  obtain ⟨a, h1, h2⟩ := h
  rw [ih2 _ _ _ _ h2, ih1 _ _ _ h1]

/-- The Expr-side formatters return the Scribe state unchanged. -/
theorem fmt_expr_preserves : ∀ e : Expr, PreservesExpr e :=
  fun e => Expr.rec pres_access pres_literal
    (fun b ihb => fun sc f r h => ihb sc f r (by simpa [Scribe.fmt_expr] using h))
    (fun c ihc => fun sc f r h => ihc sc f r (by simpa [Scribe.fmt_expr] using h))
    pres_bin_mk pres_call_mk pres_args_nil pres_args_cons e

/-- `fmt_call` returns the Scribe state unchanged. -/
theorem fmt_call_preserves : ∀ c : Call, PreservesCall c :=
  fun c sc f r h =>
    fmt_expr_preserves (.Call c) sc f r (by simpa [Scribe.fmt_expr] using h)




theorem fmt_cond_expr_preserves (ce : CondExpr) (sc : Scribe) (f : String)
    (r : Scribe × String) (h : Scribe.fmt_cond_expr sc f ce = .ok r) :
    r.1 = sc := by
  cases ce with
  | Unary op rhs => simp [Scribe.fmt_cond_expr] at h
  | Binary op lhs rhs =>
    simp only [Scribe.fmt_cond_expr, except_bind_ok] at h
    obtain ⟨a, h1, h2⟩ := h
    rw [fmt_expr_preserves _ _ _ _ h2, fmt_expr_preserves _ _ _ _ h1]

theorem fmt_local_var_preserves (lv : LocalVar) (sc : Scribe) (f : String)
    (r : Scribe × String) (h : Scribe.fmt_local_var sc f lv = .ok r) :
    r.1 = sc := by
  simp only [Scribe.fmt_local_var, except_bind_ok] at h
  obtain ⟨a, h1, h2⟩ := h
  cases h2
  exact fmt_expr_preserves _ _ _ a h1

theorem fmt_assign_preserves (a : Assign) (sc : Scribe) (f : String)
    (r : Scribe × String) (h : Scribe.fmt_assign sc f a = .ok r) :
    r.1 = sc := by
  simp only [Scribe.fmt_assign, except_bind_ok] at h
  obtain ⟨b, h1, h2⟩ := h
  cases h2
  exact fmt_expr_preserves _ _ _ b h1

theorem pres_node_stmt (s : Stmt) (ih : PreservesStmt s) :
    PreservesNode (.Stmt s) :=
  fun sc f r h => ih sc f r (by simpa [Scribe.fmt_node] using h)

theorem pres_node_expr (e : Expr) : PreservesNode (.Expr e) :=
  fun sc f r h =>
    fmt_expr_preserves e sc f r (by simpa [Scribe.fmt_node] using h)

theorem pres_node_pending (p : Pending) : PreservesNode (.Pending p) := by
  intro sc f r h
  simp [Scribe.fmt_node] at h

theorem pres_stmt_localvar (lv : LocalVar) : PreservesStmt (.LocalVar lv) :=
  fun sc f r h =>
    fmt_local_var_preserves lv sc f r (by simpa [Scribe.fmt_stmt] using h)

theorem pres_stmt_assign (a : Assign) : PreservesStmt (.Assign a) :=
  fun sc f r h =>
    fmt_assign_preserves a sc f r (by simpa [Scribe.fmt_stmt] using h)

theorem pres_stmt_call (c : Call) : PreservesStmt (.Call c) :=
  fun sc f r h =>
    fmt_call_preserves c sc f r (by simpa [Scribe.fmt_stmt] using h)

theorem pres_stmt_block (b : Block) (ih : PreservesBlock b) :
    PreservesStmt (.Block b) :=
  fun sc f r h => ih.2 sc f r (by simpa [Scribe.fmt_stmt] using h)

theorem pres_stmt_if (ib : IfBlock) (ih : PreservesIf ib) :
    PreservesStmt (.If ib) :=
  fun sc f r h => ih sc f r (by simpa [Scribe.fmt_stmt] using h)

theorem pres_if_mk (head : CondExpr) (then_ : Block) (else_ : Option Block)
    (ih4 : PreservesBlock then_) (ih5 : PreservesOptBlock else_) :
    PreservesIf (.mk head then_ else_) := by
  intro sc f r h
  obtain ⟨slv⟩ := sc
  rw [Scribe.fmt_if_block] at h
  simp only [except_bind_ok] at h
  obtain ⟨a, hcond, b, hthen, hrest⟩ := h
  have ha := fmt_cond_expr_preserves _ _ _ _ hcond
  have hb := ih4.1 _ _ _ hthen
  cases else_ with
  | none =>
    cases hrest
    simp [hb, ha]
  | some eb =>
    simp only [except_bind_ok] at hrest
    obtain ⟨c, helse, hfin⟩ := hrest
    have hc := (ih5 eb rfl).1 _ _ _ helse
    cases hfin
    simp [hc, hb, ha]

theorem pres_block_mk (nodes : List Node) (ih : PreservesNodes nodes) :
    PreservesBlock (.mk nodes) := by
  constructor
  · intro sc f r h
    exact ih sc f r (by simpa [Scribe.fmt_block] using h)
  · intro sc f r h
    rw [Scribe.fmt_block_stmt] at h
    simp only [except_bind_ok] at h
    obtain ⟨a, h1, h2⟩ := h
    cases h2
    rw [ih _ _ _ h1]
    simp

theorem pres_opt_none : PreservesOptBlock none :=
  fun _ hb => Option.noConfusion hb

theorem pres_opt_some (val : Block) (ih : PreservesBlock val) :
    PreservesOptBlock (some val) := by
  intro b hb
  cases hb
  exact ih

theorem pres_nodes_nil : PreservesNodes [] := by
  intro sc f r h
  simp only [Scribe.fmt_block_nodes, Except.ok.injEq] at h
  subst h
  rfl

theorem pres_nodes_cons (head : Node) (tail : List Node)
    (ih1 : PreservesNode head) (ih6 : PreservesNodes tail) :
    PreservesNodes (head :: tail) := by
  intro sc f r h
  simp only [Scribe.fmt_block_nodes, except_bind_ok] at h
  obtain ⟨a, h1, h2⟩ := h
  rw [ih6 _ _ _ h2, ih1 _ _ _ h1]

/-- Every node formatter restores the Scribe state on success. -/
theorem fmt_node_preserves : ∀ n : Node, PreservesNode n :=
  fun n => Node.rec pres_node_stmt pres_node_expr pres_node_pending
    pres_stmt_localvar pres_stmt_assign pres_stmt_call pres_stmt_block
    pres_stmt_if pres_if_mk pres_block_mk pres_opt_none pres_opt_some
    pres_nodes_nil pres_nodes_cons n

/-- Every block formatter restores the Scribe state on success. -/
theorem fmt_block_preserves : ∀ b : Block, PreservesBlock b :=
  fun b => Block.rec pres_node_stmt pres_node_expr pres_node_pending
    pres_stmt_localvar pres_stmt_assign pres_stmt_call pres_stmt_block
    pres_stmt_if pres_if_mk pres_block_mk pres_opt_none pres_opt_some
    pres_nodes_nil pres_nodes_cons b

/-- C10: a successful `fmt_syntax` leaves the Scribe's indentation level
exactly where it started: `with_indent` increments the level before a
nested body and decrements it again on success, and no other function
touches it. -/
theorem c10_theorem (stx : SyntaxTree) (sc : Scribe) (f : String)
    (r : Scribe × String)
    (h : Scribe.fmt_syntax_tree sc f stx = .ok r) :
    r.1.level = sc.level := by
  have hr := (fmt_block_preserves stx.root).1 sc f r
    (by simpa [Scribe.fmt_syntax_tree] using h)
  rw [hr]

/-- C10 witness: formatting the concrete `if` tree starting at level 1
succeeds and returns level 1. -/
theorem c10_witness :
    Scribe.fmt_syntax_tree ⟨1⟩ "" if_syntax_tree =
      .ok (⟨1⟩, "    if 1 <= 2 then\n        local x = 3\nend\n") ∧
    ((⟨1⟩ : Scribe), "    if 1 <= 2 then\n        local x = 3\nend\n").1.level =
      (⟨1⟩ : Scribe).level :=
  ⟨rfl, c10_theorem if_syntax_tree ⟨1⟩ ""
    ((⟨1⟩ : Scribe), "    if 1 <= 2 then\n        local x = 3\nend\n") rfl⟩

end Lua40
